import Mathlib

/-!
# Verification of the puresnmp high-level API (`puresnmp/api/raw.py`)

This file gives a shallow embedding of the response-processing and walk
logic of `puresnmp.api.raw` and proves/refutes the specification claims
about it.

Modelling choices:

* All network I/O (`puresnmp.transport.send`) and BER decoding
  (`Sequence.from_bytes`) are abstracted: each operation takes the
  already-decoded response PDU (or a decode/transport error) as an
  explicit argument, and the walk engine takes a *fetcher* / *agent*
  function, mirroring the `fetcher` parameter of `multiwalk`.
* Python exceptions become an explicit error sum type `Err`; fallible
  operations return `Except Err α`.
* The generator-based walk (`multiwalk`) becomes a fuel-indexed loop
  returning the list of yielded varbinds, the number of fetch requests
  issued, and a termination status.
-/

namespace Puresnmp

/-- An object identifier: a sequence of sub-identifiers.
Modelled from the spec: the `ObjectIdentifier` value type of
`puresnmp.x690.types` is not under `src/`; the spec defines an OID as a
sequence of unsigned sub-identifiers. -/
abbrev OID := List Nat

/-- Lexicographic strict order on OIDs.
Modelled from the spec: "Ordering is lexicographic" — this is the
`<` comparison on `ObjectIdentifier` used by `multigetnext`'s successor
check (Python tuple comparison of the identifier sequences). -/
def oidLt : OID → OID → Bool
  | [], [] => false
  | [], _ :: _ => true
  | _ :: _, [] => false
  | a :: as, b :: bs => if a < b then true else if a = b then oidLt as bs else false

/-- Subtree containment: `oidContains base x` holds when `base` is a
strict prefix of `x`, i.e. `x` lies strictly below `base` in the tree.
Modelled from the spec: "Containment `a ⊑ b` holds iff `a` is a strict
prefix of `b`" — this is Python's `x in base` on `ObjectIdentifier`. -/
def oidContains : OID → OID → Bool
  | [], [] => false
  | [], _ :: _ => true
  | _ :: _, [] => false
  | a :: as, b :: bs => (a == b) && oidContains as bs

/-- Tagged values carried in varbinds (only the payload shapes the
claims exercise; the full tagged union of the spec also has application
types, which behave identically for the logic modelled here). -/
inductive Value where
  | int (i : Int)
  | octets (bytes : List Nat)
  | null
  | oidv (o : OID)
  deriving DecidableEq

/-- A variable binding: an OID paired with a tagged value. -/
structure VarBind where
  oid : OID
  value : Value
  deriving DecidableEq

/-- A decoded response PDU, as accessed by `raw.py` via
`raw_response[2]`: request id, error status/index and varbinds. -/
structure Pdu where
  request_id : Int
  error_status : Int
  error_index : Int
  varbinds : List VarBind
  deriving DecidableEq

/-- The exceptions of `puresnmp.exc` (plus `TypeError`) that the code
under `src/` raises or catches. Messages are not modelled. -/
inductive Err where
  | snmpError
  | noSuchOID
  | faultySNMPImplementation
  deriving DecidableEq

instance {ε α : Type} [DecidableEq ε] [DecidableEq α] : DecidableEq (Except ε α)
  | .ok a, .ok b =>
    if h : a = b then .isTrue (by simp [h]) else .isFalse (by simp [h])
  | .ok _, .error _ => .isFalse (by simp)
  | .error _, .ok _ => .isFalse (by simp)
  | .error e, .error f =>
    if h : e = f then .isTrue (by simp [h]) else .isFalse (by simp [h])

/-! ## Operation engine (`multiget`, `multigetnext`, `multiset`, `bulkget`)

Each function is the post-transport part of the corresponding function in
`puresnmp/api/raw.py`: it receives the request data, the request id the
engine generated (`get_request_id()`), and the decoded response (or the
error raised while obtaining it), and produces the operation's result. -/

/-- Function `multiget` from `raw.py`: collect the response varbind values,
check the cardinality, and return the values. -/
def multiget (oids : List OID) (_rid : Int) (resp : Except Err Pdu) :
    Except Err (List Value) :=
  match resp with
  | .error e => .error e
  | .ok pdu =>
    let output := pdu.varbinds.map VarBind.value
    if output.length ≠ oids.length then .error .snmpError
    else .ok output

/-- Function `multigetnext` from `raw.py`: check the cardinality, then verify
that each retrieved OID is a strict successor of the requested OID. -/
def multigetnext (oids : List OID) (_rid : Int) (resp : Except Err Pdu) :
    Except Err (List VarBind) :=
  match resp with
  | .error e => .error e
  | .ok pdu =>
    if pdu.varbinds.length ≠ oids.length then .error .snmpError
    else
      let output := pdu.varbinds
      if (oids.zip output).all (fun p => oidLt p.1 p.2.oid) then .ok output
      else .error .faultySNMPImplementation

/-- Function `getnext` from `raw.py`: `multigetnext` on a single OID, taking the
first element. The empty case is unreachable (the cardinality check
guarantees exactly one varbind; in Python it would be an `IndexError`). -/
def getnext (oid : OID) (rid : Int) (resp : Except Err Pdu) :
    Except Err VarBind :=
  match multigetnext [oid] rid resp with
  | .error e => .error e
  | .ok (v :: _) => .ok v
  | .ok [] => .error .snmpError

/-- Function `get` from `raw.py`: `multiget` on a single OID, taking the first
element (same unreachable empty case as `getnext`). -/
def get (oid : OID) (rid : Int) (resp : Except Err Pdu) :
    Except Err Value :=
  match multiget [oid] rid resp with
  | .error e => .error e
  | .ok (v :: _) => .ok v
  | .ok [] => .error .snmpError

/-- Insert into a Python-dict-like association list: replace the value
at an existing key, else append the new binding. -/
def dictInsert : List (OID × Value) → OID → Value → List (OID × Value)
  | [], k, v => [(k, v)]
  | p :: ps, k, v => if p.1 = k then (k, v) :: ps else p :: dictInsert ps k v

/-- Build a Python dict (insertion-ordered, unique keys) from a list of
key/value pairs; later pairs overwrite earlier ones. -/
def toDict (l : List (OID × Value)) : List (OID × Value) :=
  l.foldl (fun m kv => dictInsert m kv.1 kv.2) []

/-- Function `multiset` from `raw.py`: build the `{unicode(oid): value}` dict
from the response varbinds and check its cardinality against the number
of requested mappings. (The `isinstance(v, Type)` guard on the inputs is
a dynamic-typing check with no counterpart in the typed model.) -/
def multiset (mappings : List (OID × Value)) (_rid : Int)
    (resp : Except Err Pdu) : Except Err (List (OID × Value)) :=
  match resp with
  | .error e => .error e
  | .ok pdu =>
    let output := toDict (pdu.varbinds.map fun vb => (vb.oid, vb.value))
    if output.length ≠ mappings.length then .error .snmpError
    else .ok output

/-- Structure `BulkResult` from `puresnmp.util`: the scalar mapping and the
insertion-ordered listing. -/
structure BulkResult where
  scalars : List (OID × Value)
  listing : List (OID × Value)
  deriving DecidableEq

/-- Function `bulkget` from `raw.py`: the RFC 3416 cardinality check followed by
the split of the response varbinds into scalars and listing. -/
def bulkget (scalar_oids repeating_oids : List OID) (max_list_size : Nat)
    (_rid : Int) (resp : Except Err Pdu) : Except Err BulkResult :=
  match resp with
  | .error e => .error e
  | .ok pdu =>
    let oids := scalar_oids ++ repeating_oids
    let non_repeaters := scalar_oids.length
    let n := min non_repeaters oids.length
    let m := max_list_size
    let r := max (oids.length - n) 0
    let expected_max_varbinds := n + m * r
    if pdu.varbinds.length > expected_max_varbinds then .error .snmpError
    else
      let scalar_tmp := pdu.varbinds.take scalar_oids.length
      let repeating_tmp := pdu.varbinds.drop scalar_oids.length
      .ok ⟨toDict (scalar_tmp.map fun vb => (vb.oid, vb.value)),
           toDict (repeating_tmp.map fun vb => (vb.oid, vb.value))⟩

/-! ## Walk engine (`multiwalk`, `bulkwalk`)

The walk helpers `group_varbinds` and `get_unfinished_walk_oids` live in
`puresnmp/util.py`, which is not under `src/`; they are modelled from
the spec's walk state machine (§4.2). -/

/-- Insert an OID into an ascending list (helper for sorting bases). -/
def insertOid (x : OID) : List OID → List OID
  | [] => [x]
  | y :: ys => if oidLt x y then x :: y :: ys else y :: insertOid x ys

/-- Sort a list of OIDs into ascending lexicographic order. -/
def sortOids (l : List OID) : List OID := l.foldr insertOid []

/-- First base of the list containing the given OID, if any. -/
def firstContaining : List OID → OID → Option OID
  | [], _ => none
  | b :: bs, o => if oidContains b o then some b else firstContaining bs o

/-- Modelled from the spec: `group_varbinds` from `puresnmp.util` (not
under `src/`). Per §4.2, after each round "varbinds are grouped by the
base-OID that contains them", classifying a varbind under the requested
base (`user_roots` when given, else the effective roots) containing its
OID; varbinds outside every base belong to no group, which leaves their
base finished. Groups are kept in ascending base order ("the engine then
yields, in ascending order of base"). -/
def group_varbinds (varbinds : List VarBind) (effective_roots : List OID)
    (user_roots : List OID) : List (OID × List VarBind) :=
  let bases := if user_roots.isEmpty then effective_roots else user_roots
  let sorted := sortOids bases
  sorted.map fun b =>
    (b, varbinds.filter fun vb => firstContaining sorted vb.oid == some b)

/-- Modelled from the spec: `get_unfinished_walk_oids` from
`puresnmp.util` (not under `src/`). Per §4.2/§5, "an *Unfinished* base
is one whose last received varbind is still inside its subtree and whose
next fetch would be `last.oid`": for each base with a non-empty group
whose last varbind is still contained in the base, return the base
paired with that last varbind. -/
def get_unfinished_walk_oids (grouped : List (OID × List VarBind)) :
    List (OID × VarBind) :=
  grouped.filterMap fun bv =>
    match bv.2.getLast? with
    | none => none
    | some last =>
      if oidContains bv.1 last.oid then some (bv.1, last) else none

/-- The yield filter of `multiwalk`: walk over the newly received
varbinds and keep those contained in at least one requested base and
not yielded before (`if not any(containment) or varbind.oid in yielded:
continue`). Returns the varbinds yielded this round. -/
def yieldVarbinds (requested : List OID) :
    List VarBind → List OID → List VarBind
  | [], _ => []
  | vb :: rest, yielded =>
    if (requested.any fun b => oidContains b vb.oid)
        && !(yielded.contains vb.oid) then
      vb :: yieldVarbinds requested rest (vb.oid :: yielded)
    else
      yieldVarbinds requested rest yielded

/-- The `yielded` set after processing the round's varbinds (companion
to `yieldVarbinds`; the set is threaded through the whole walk). -/
def yieldedAfter (requested : List OID) :
    List VarBind → List OID → List OID
  | [], yielded => yielded
  | vb :: rest, yielded =>
    if (requested.any fun b => oidContains b vb.oid)
        && !(yielded.contains vb.oid) then
      yieldedAfter requested rest (vb.oid :: yielded)
    else
      yieldedAfter requested rest yielded

/-- A fetcher, as passed to `multiwalk`: given the OIDs to continue
from, the port and the timeout, return one varbind per OID or raise.
(The `ip` and `community` strings are inert and omitted.) -/
abbrev Fetcher := List OID → Nat → Nat → Except Err (List VarBind)

/-- The `errors` parameter of the walk functions
(`ERRORS_STRICT = 'strict'`, `ERRORS_WARN = 'warn'`). -/
inductive ErrorMode where
  | strict
  | warn
  deriving DecidableEq

/-- Outcome status of a (fuel-indexed) walk: the generator was exhausted
normally, raised an exception, or the fuel ran out before either. -/
inductive WalkStatus where
  | done
  | failed (e : Err)
  | outOfFuel
  deriving DecidableEq

/-- Result of running a walk to completion: everything the generator
yielded, the number of fetch requests issued, and how it ended. -/
structure WalkResult where
  yields : List VarBind
  fetches : Nat
  status : WalkStatus
  deriving DecidableEq

/-- The `while unfinished_oids:` loop of `multiwalk`, one fuel unit per
iteration. Each round fetches the frontier (`next_fetches`), handling
`NoSuchOID` as clean termination and `FaultySNMPImplementation` as a
warned termination (warn) or a propagated error (strict); on success it
regroups, recomputes the unfinished bases, and yields the filtered
varbinds. -/
def multiwalkLoop (fetcher : Fetcher) (port timeout : Nat)
    (requested : List OID) (errors : ErrorMode) (yielded : List OID)
    (unfinished : List (OID × VarBind)) (acc : List VarBind)
    (fetches : Nat) : Nat → WalkResult
  | 0 =>
    if unfinished.isEmpty then ⟨acc, fetches, .done⟩
    else ⟨acc, fetches, .outOfFuel⟩
  | fuel + 1 =>
    if unfinished.isEmpty then ⟨acc, fetches, .done⟩
    else
      let next_fetches := unfinished.map fun u => u.2.oid
      match fetcher next_fetches port timeout with
      | .error .noSuchOID => ⟨acc, fetches + 1, .done⟩
      | .error .faultySNMPImplementation =>
        match errors with
        | .warn => ⟨acc, fetches + 1, .done⟩
        | .strict => ⟨acc, fetches + 1, .failed .faultySNMPImplementation⟩
      | .error e => ⟨acc, fetches + 1, .failed e⟩
      | .ok varbinds =>
        let grouped := group_varbinds varbinds next_fetches requested
        let unfinished' := get_unfinished_walk_oids grouped
        let allvbs := (grouped.map Prod.snd).flatten
        let out := yieldVarbinds requested allvbs yielded
        let yielded' := yieldedAfter requested allvbs yielded
        multiwalkLoop fetcher port timeout requested errors yielded'
          unfinished' (acc ++ out) (fetches + 1) fuel

/-- Function `multiwalk` from `raw.py`, run to completion with the given fuel:
the initial fetch happens outside any `try`/`except` (so its errors
propagate), then the loop continues the unfinished bases. -/
def multiwalk (oids : List OID) (port timeout : Nat) (fetcher : Fetcher)
    (errors : ErrorMode) (fuel : Nat) : WalkResult :=
  match fetcher oids port timeout with
  | .error e => ⟨[], 1, .failed e⟩
  | .ok varbinds =>
    let grouped := group_varbinds varbinds oids []
    let unfinished := get_unfinished_walk_oids grouped
    let allvbs := (grouped.map Prod.snd).flatten
    let out := yieldVarbinds oids allvbs []
    let yielded := yieldedAfter oids allvbs []
    multiwalkLoop fetcher port timeout oids errors yielded unfinished
      out 1 fuel

/-- An agent, as seen by a fetcher built on an operation: maps the
requested OIDs (plus port and timeout) to the decoded response PDU, or
to the error raised while transmitting/decoding. -/
abbrev Agent := List OID → Nat → Nat → Except Err Pdu

/-- The default fetcher of `multiwalk` (`fetcher=multigetnext`),
instantiated with an agent producing the responses. -/
def multigetnext_fetcher (agent : Agent) : Fetcher :=
  fun oids port timeout => multigetnext oids 0 (agent oids port timeout)

/-- Function `_bulkwalk_fetcher` from `raw.py`: issue
`bulkget([], oids, max_list_size=bulk_size)` and turn the listing into
varbinds. -/
def bulkwalk_fetcher (bulk_size : Nat) (agent : Agent) : Fetcher :=
  fun oids port timeout =>
    match bulkget [] oids bulk_size 0 (agent oids port timeout) with
    | .error e => .error e
    | .ok result => .ok (result.listing.map fun kv => ⟨kv.1, kv.2⟩)

/-- Function `bulkwalk` from `raw.py`: delegate to `multiwalk` with the bulk
fetcher. `bulkwalk` takes no `timeout` and no `errors` argument, so
`multiwalk` runs with its defaults `timeout=2` and
`errors=ERRORS_STRICT`; the final `for oid, value in result: yield
VarBind(oid, value)` re-wrap is the identity on varbinds. -/
def bulkwalk (agent : Agent) (oids : List OID) (bulk_size : Nat)
    (port : Nat) (fuel : Nat) : WalkResult :=
  let result := multiwalk oids port 2 (bulkwalk_fetcher bulk_size agent)
    .strict fuel
  { result with yields := result.yields.map fun vb => ⟨vb.oid, vb.value⟩ }

/-! ## Concrete agents and fetchers used in scenario theorems -/

/-- An agent stuck on a repeated OID: GETNEXT replies advance
`1.2 → 1.2.3 → 1.2.4 → 1.2.5` and then answer `1.2.5` forever. -/
def stuckAgent : Agent := fun oids _ _ =>
  .ok ⟨234, 0, 0, oids.map fun o =>
    if o = [1, 2] then ⟨[1, 2, 3], .int 123⟩
    else if o = [1, 2, 3] then ⟨[1, 2, 4], .int 124⟩
    else if o = [1, 2, 4] then ⟨[1, 2, 5], .int 125⟩
    else ⟨[1, 2, 5], .int 125⟩⟩

/-- An agent whose third GETNEXT reply leaves the walked subtree
`1.3.5` (the recorded `test_walk` scenario). -/
def outsideAgent : Agent := fun oids _ _ =>
  .ok ⟨234, 0, 0, oids.map fun o =>
    if o = [1, 3, 5] then ⟨[1, 3, 5, 1], .int 1⟩
    else if o = [1, 3, 5, 1] then ⟨[1, 3, 5, 13], .int 2⟩
    else ⟨[1, 3, 6, 1], .int 3⟩⟩

/-- A two-base fetcher: the first round answers both bases `1.2` and
`1.3`; the second round raises `FaultySNMPImplementation`; continuing
base `1.3` alone would succeed with `1.3.2`. -/
def twoBaseFetcher : Fetcher := fun oids _ _ =>
  if oids = [[1, 2], [1, 3]] then
    .ok [⟨[1, 2, 1], .int 21⟩, ⟨[1, 3, 1], .int 31⟩]
  else if oids = [[1, 2, 1], [1, 3, 1]] then
    .error .faultySNMPImplementation
  else if oids = [[1, 3, 1]] then .ok [⟨[1, 3, 2], .int 32⟩]
  else .error .snmpError

/-! ## Dict lemmas (for the `multiset` cardinality claim) -/

lemma dictInsert_keys (m : List (OID × Value)) (k : OID) (v : Value) :
    (dictInsert m k v).map Prod.fst =
      if k ∈ m.map Prod.fst then m.map Prod.fst
      else m.map Prod.fst ++ [k] := by
  induction m with
  | nil => simp [dictInsert]
  | cons p ps ih =>
    by_cases h : p.1 = k
    · subst h
      simp [dictInsert]
    · have hk : ¬(k = p.1) := fun hh => h hh.symm
      simp only [dictInsert, if_neg h, List.map_cons, ih, List.mem_cons,
        hk, false_or]
      split_ifs <;> simp

lemma toDictAux_mem_keys (l : List (OID × Value)) :
    ∀ (m : List (OID × Value)) (k' : OID),
      (k' ∈ (l.foldl (fun m kv => dictInsert m kv.1 kv.2) m).map Prod.fst) ↔
        k' ∈ m.map Prod.fst ∨ k' ∈ l.map Prod.fst := by
  induction l with
  | nil => simp
  | cons kv rest ih =>
    intro m k'
    simp only [List.foldl_cons, ih, dictInsert_keys, List.map_cons,
      List.mem_cons]
    split_ifs with hmem
    · constructor
      · tauto
      · rintro (h | h | h) <;> try tauto
        subst h; exact Or.inl hmem
    · simp only [List.mem_append, List.mem_singleton]
      tauto

lemma toDictAux_keys_nodup (l : List (OID × Value)) :
    ∀ (m : List (OID × Value)), (m.map Prod.fst).Nodup →
      ((l.foldl (fun m kv => dictInsert m kv.1 kv.2) m).map Prod.fst).Nodup := by
  induction l with
  | nil => intro m h; simpa using h
  | cons kv rest ih =>
    intro m h
    simp only [List.foldl_cons]
    apply ih
    rw [dictInsert_keys]
    split_ifs with hmem
    · exact h
    · exact List.Nodup.append h (List.nodup_singleton _)
        (by intro a ha hb; simp at hb; subst hb; exact hmem ha)

/-- The size of the Python dict built from a pair list is the number of
distinct keys. -/
lemma toDict_length (l : List (OID × Value)) :
    (toDict l).length = (l.map Prod.fst).toFinset.card := by
  unfold toDict
  have hnodup := toDictAux_keys_nodup l [] (by simp)
  have hlen : (l.foldl (fun m kv => dictInsert m kv.1 kv.2) []).length =
      ((l.foldl (fun m kv => dictInsert m kv.1 kv.2) []).map Prod.fst).length := by
    simp
  rw [hlen, ← List.toFinset_card_of_nodup hnodup]
  congr 1
  ext k
  simp only [List.mem_toFinset]
  simpa using toDictAux_mem_keys l [] k

/-! ## Claim theorems -/

/-- C1 (counterexample): `multiget` accepts a response whose
`request_id` (99) differs from the request's (1) and returns its values;
no request/response pairing check exists in the operation engine. -/
theorem multiget_accepts_mismatched_request_id :
    multiget [[1, 2, 3]] 1 (.ok ⟨99, 0, 0, [⟨[1, 2, 3, 0], .int 5⟩]⟩) =
      .ok [.int 5] ∧ (99 : Int) ≠ 1 := by decide

/-- C1 (amended): no operation of the engine inspects the response's
`request_id` (nor the request id it generated): the result of
`multiget`, `multigetnext`, `multiset` and `bulkget` is unchanged under
arbitrary changes of both, so a response with a differing `request_id`
is accepted as the result. -/
theorem operations_ignore_request_id (oids : List OID)
    (mappings : List (OID × Value)) (scal rep : List OID)
    (mls : Nat) (rid rid' x : Int) (pdu : Pdu) :
    multiget oids rid (.ok pdu) =
      multiget oids rid' (.ok { pdu with request_id := x }) ∧
    multigetnext oids rid (.ok pdu) =
      multigetnext oids rid' (.ok { pdu with request_id := x }) ∧
    multiset mappings rid (.ok pdu) =
      multiset mappings rid' (.ok { pdu with request_id := x }) ∧
    bulkget scal rep mls rid (.ok pdu) =
      bulkget scal rep mls rid' (.ok { pdu with request_id := x }) :=
  ⟨rfl, rfl, rfl, rfl⟩

/-- C9: whenever the response varbind count matches, `multiget` returns
exactly the response varbind values in the agent's order; the response
OIDs are never compared to the requested ones. -/
theorem multiget_returns_response_values (oids : List OID) (rid : Int)
    (pdu : Pdu) (h : pdu.varbinds.length = oids.length) :
    multiget oids rid (.ok pdu) = .ok (pdu.varbinds.map VarBind.value) := by
  simp [multiget, h]

/-- C9 (witness): a response with the right count but OIDs unrelated to
the requested ones is returned without error. -/
theorem multiget_returns_response_values_witness :
    multiget [[1, 2, 3], [4, 5]] 7
        (.ok ⟨0, 0, 0, [⟨[9, 9, 9], .int 1⟩, ⟨[8, 8], .null⟩]⟩) =
      .ok [.int 1, .null] :=
  multiget_returns_response_values _ _ _ (by decide)

/-- C6: `multiget`, `multigetnext` and `multiset` raise `SnmpError` when
the response varbind count (for `multiset`: the number of distinct
response OIDs) differs from the request count, and any list they do
return has exactly the requested length. -/
theorem response_cardinality_checks (oids : List OID)
    (mappings : List (OID × Value)) (rid : Int) (pdu : Pdu) :
    (pdu.varbinds.length ≠ oids.length →
      multiget oids rid (.ok pdu) = .error .snmpError) ∧
    (∀ l, multiget oids rid (.ok pdu) = .ok l → l.length = oids.length) ∧
    (pdu.varbinds.length ≠ oids.length →
      multigetnext oids rid (.ok pdu) = .error .snmpError) ∧
    (∀ l, multigetnext oids rid (.ok pdu) = .ok l →
      l.length = oids.length) ∧
    ((pdu.varbinds.map VarBind.oid).toFinset.card ≠ mappings.length →
      multiset mappings rid (.ok pdu) = .error .snmpError) ∧
    (∀ l, multiset mappings rid (.ok pdu) = .ok l →
      l.length = mappings.length) := by
  have hcard : (toDict (pdu.varbinds.map fun vb => (vb.oid, vb.value))).length
      = (pdu.varbinds.map VarBind.oid).toFinset.card := by
    rw [toDict_length]
    congr 1
    simp [List.map_map]
    rfl
  refine ⟨?_, ?_, ?_, ?_, ?_, ?_⟩
  · intro h
    simp [multiget, h]
  · intro l hl
    simp only [multiget] at hl
    split_ifs at hl with h
    simp only [Except.ok.injEq] at hl
    subst hl
    simpa using not_not.mp h
  · intro h
    simp [multigetnext, h]
  · intro l hl
    simp only [multigetnext] at hl
    split_ifs at hl with h1 h2
    simp only [Except.ok.injEq] at hl
    subst hl
    exact not_not.mp h1
  · intro h
    rw [← hcard] at h
    simp [multiset, h]
  · intro l hl
    simp only [multiset] at hl
    split_ifs at hl with h
    simp only [Except.ok.injEq] at hl
    subst hl
    exact not_not.mp h

/-- C6 (witness): a GET response carrying two varbinds for a one-OID
request raises `SnmpError`; a matching SET response returns all
mappings. -/
theorem response_cardinality_checks_witness :
    multiget [[1, 2, 3]] 0
        (.ok ⟨0, 0, 0, [⟨[1, 2], .int 1⟩, ⟨[1, 3], .int 2⟩]⟩) =
      .error .snmpError ∧
    multiset [([1, 2], Value.int 1)] 0
        (.ok ⟨0, 0, 0, [⟨[1, 2], .int 7⟩]⟩) = .ok [([1, 2], .int 7)] ∧
    (1 : Nat) = 1 :=
  ⟨(response_cardinality_checks [[1, 2, 3]] [] 0 _).1 (by decide),
   by decide,
   (response_cardinality_checks [] [([1, 2], Value.int 1)] 0
      ⟨0, 0, 0, [⟨[1, 2], .int 7⟩]⟩).2.2.2.2.2
      [([1, 2], Value.int 7)] (by decide)⟩

/-- Helper: what a successful `multigetnext` guarantees — the returned
list is the response varbinds and each returned OID strictly succeeds
the requested OID at its position. -/
lemma multigetnext_ok_spec (oids : List OID) (rid : Int) (pdu : Pdu)
    (l : List VarBind) (hl : multigetnext oids rid (.ok pdu) = .ok l) :
    l = pdu.varbinds ∧ ∀ p ∈ oids.zip l, oidLt p.1 p.2.oid = true := by
  simp only [multigetnext] at hl
  split_ifs at hl with h1 h2
  simp only [Except.ok.injEq] at hl
  subst hl
  exact ⟨rfl, fun p hp => List.all_eq_true.mp h2 p hp⟩

/-- C5: when `multigetnext` returns varbinds, each returned OID is a
strict lexicographic successor of the requested OID at the same
position; when the counts match but some returned OID is not strictly
greater, it raises `FaultySNMPImplementation` (and returns nothing);
`getnext` inherits the guarantee. -/
theorem multigetnext_strict_successor (oids : List OID) (rid : Int)
    (pdu : Pdu) :
    (∀ l, multigetnext oids rid (.ok pdu) = .ok l →
      l = pdu.varbinds ∧ ∀ p ∈ oids.zip l, oidLt p.1 p.2.oid = true) ∧
    (pdu.varbinds.length = oids.length →
      (∃ p ∈ oids.zip pdu.varbinds, oidLt p.1 p.2.oid = false) →
      multigetnext oids rid (.ok pdu) = .error .faultySNMPImplementation) ∧
    (∀ oid v, getnext oid rid (.ok pdu) = .ok v →
      oidLt oid v.oid = true) := by
  refine ⟨multigetnext_ok_spec oids rid pdu, ?_, ?_⟩
  · rintro hlen ⟨p, hp, hfalse⟩
    simp only [multigetnext,
      if_neg (by omega : ¬pdu.varbinds.length ≠ oids.length)]
    have hall : ¬((oids.zip pdu.varbinds).all
        (fun p => oidLt p.1 p.2.oid) = true) := by
      intro hall
      have := List.all_eq_true.mp hall p hp
      rw [hfalse] at this
      exact Bool.false_ne_true this
    rw [if_neg hall]
  · intro oid v hv
    simp only [getnext] at hv
    rcases hmg : multigetnext [oid] rid (.ok pdu) with e | l
    · rw [hmg] at hv
      simp at hv
    · rw [hmg] at hv
      rcases l with _ | ⟨v', t⟩
      · simp at hv
      · simp only [Except.ok.injEq] at hv
        rw [← hv]
        exact (multigetnext_ok_spec [oid] rid pdu _ hmg).2 (oid, v') (by simp)

/-- C5 (witness): an agent echoing the requested OID triggers
`FaultySNMPImplementation`; a strictly greater OID is accepted and
verified. -/
theorem multigetnext_strict_successor_witness :
    multigetnext [[1, 2]] 0 (.ok ⟨0, 0, 0, [⟨[1, 2], .int 1⟩]⟩) =
      .error .faultySNMPImplementation ∧
    oidLt [1, 2] [1, 2, 3] = true :=
  ⟨(multigetnext_strict_successor [[1, 2]] 0
        ⟨0, 0, 0, [⟨[1, 2], .int 1⟩]⟩).2.1 (by decide)
      ⟨([1, 2], ⟨[1, 2], .int 1⟩), by decide, by decide⟩,
   ((multigetnext_strict_successor [[1, 2]] 0
        ⟨0, 0, 0, [⟨[1, 2, 3], .int 1⟩]⟩).1
      [⟨[1, 2, 3], .int 1⟩] (by decide)).2
      ([1, 2], ⟨[1, 2, 3], .int 1⟩) (by decide)⟩

/-- C4 (counterexample): a bulk response exceeding the cardinality bound
(2 varbinds for `non_repeaters = 0`, `max_list_size = 1`, one repeating
OID, bound `0 + 1·1 = 1`) raises the generic `SnmpError`, not
`FaultySNMPImplementation` as the claim states. -/
theorem bulkget_cardinality_error_type :
    bulkget [] [[1, 2]] 1 0
        (.ok ⟨0, 0, 0, [⟨[1, 2, 1], .int 1⟩, ⟨[1, 2, 2], .int 2⟩]⟩) =
      .error .snmpError ∧
    (Except.error Err.snmpError : Except Err BulkResult) ≠
      .error .faultySNMPImplementation := by decide

/-- C4 (amended): with `n = non_repeaters`, `m = max_list_size` and `k`
requested OIDs, a response with more than `n + m·max(0, k − n)` varbinds
fails with `SnmpError`; otherwise the cardinality check passes and a
`BulkResult` is returned. -/
theorem bulkget_cardinality_check (scal rep : List OID) (mls : Nat)
    (rid : Int) (pdu : Pdu) :
    (pdu.varbinds.length > scal.length + mls * rep.length →
      bulkget scal rep mls rid (.ok pdu) = .error .snmpError) ∧
    (pdu.varbinds.length ≤ scal.length + mls * rep.length →
      bulkget scal rep mls rid (.ok pdu) =
        .ok ⟨toDict ((pdu.varbinds.take scal.length).map
              fun vb => (vb.oid, vb.value)),
            toDict ((pdu.varbinds.drop scal.length).map
              fun vb => (vb.oid, vb.value))⟩) := by
  have hbound : min scal.length (scal ++ rep).length +
      mls * max ((scal ++ rep).length - min scal.length (scal ++ rep).length) 0 =
      scal.length + mls * rep.length := by
    simp [List.length_append]
  constructor
  · intro h
    simp only [bulkget, hbound]
    rw [if_pos h]
  · intro h
    simp only [bulkget, hbound]
    rw [if_neg (by omega)]

/-- C4 (witness): the in-bound and out-of-bound branches at concrete
inputs (scenario 7 of the spec: 1 scalar, 1 repeater, list size 5). -/
theorem bulkget_cardinality_check_witness :
    bulkget [[1, 1]] [[1, 3]] 5 0
        (.ok ⟨0, 0, 0, [⟨[1, 1, 0], .int 9⟩, ⟨[1, 3, 1], .int 1⟩]⟩) =
      .ok ⟨[([1, 1, 0], .int 9)], [([1, 3, 1], .int 1)]⟩ ∧
    bulkget [] [] 1 0 (.ok ⟨0, 0, 0, [⟨[1, 2], .int 1⟩]⟩) =
      .error .snmpError :=
  ⟨(bulkget_cardinality_check [[1, 1]] [[1, 3]] 5 0 _).2 (by decide),
   (bulkget_cardinality_check [] [] 1 0 _).1 (by decide)⟩

/-- C8: a single-base warn-mode walk against `stuckAgent` (replies
`1.2.3, 1.2.4, 1.2.5, 1.2.5, 1.2.5, …`) yields exactly the varbinds for
`1.2.3`, `1.2.4` and `1.2.5`, terminates (status `done`, not out of
fuel), and issues exactly four fetch requests — the fourth detects the
non-increasing OID. -/
theorem walk_stuck_agent_terminates :
    multiwalk [[1, 2]] 161 2 (multigetnext_fetcher stuckAgent) .warn 10 =
      ⟨[⟨[1, 2, 3], .int 123⟩, ⟨[1, 2, 4], .int 124⟩,
        ⟨[1, 2, 5], .int 125⟩], 4, .done⟩ := by decide

/-- C2 (counterexample): a warn-mode walk over the two bases `1.2` and
`1.3` whose second fetch raises `FaultySNMPImplementation` stops the
whole walk after 2 fetches, although base `1.3` is still unfinished and
the fetcher would have answered `1.3.2` for it: the other base is *not*
continued. -/
theorem multiwalk_warn_aborts_all_bases :
    multiwalk [[1, 2], [1, 3]] 161 2 twoBaseFetcher .warn 10 =
      ⟨[⟨[1, 2, 1], .int 21⟩, ⟨[1, 3, 1], .int 31⟩], 2, .done⟩ ∧
    twoBaseFetcher [[1, 3, 1]] 161 2 = .ok [⟨[1, 3, 2], .int 32⟩] ∧
    (⟨[1, 3, 2], Value.int 32⟩ : VarBind) ∉
      (multiwalk [[1, 2], [1, 3]] 161 2 twoBaseFetcher .warn 10).yields := by
  decide

/-- C2 (amended): in warn mode, a `FaultySNMPImplementation` raised by
the fetcher terminates the *entire* walk — the loop breaks after the
offending fetch, so nothing further is fetched or yielded for any base,
finished or not. -/
theorem multiwalkLoop_warn_faulty_terminates (fetcher : Fetcher)
    (port timeout : Nat) (requested : List OID) (yielded : List OID)
    (unfinished : List (OID × VarBind)) (acc : List VarBind)
    (fetches fuel : Nat) (hne : unfinished ≠ [])
    (hf : fetcher (unfinished.map fun u => u.2.oid) port timeout =
      .error .faultySNMPImplementation) :
    multiwalkLoop fetcher port timeout requested .warn yielded unfinished
      acc fetches (fuel + 1) = ⟨acc, fetches + 1, .done⟩ := by
  simp only [multiwalkLoop]
  rw [if_neg (by simpa using hne), hf]

/-- C2 (witness): the amended statement at the state the two-base walk
reaches after its first round. -/
theorem multiwalkLoop_warn_faulty_terminates_witness :
    multiwalkLoop twoBaseFetcher 161 2 [[1, 2], [1, 3]] .warn
      [[1, 3, 1], [1, 2, 1]]
      [([1, 2], ⟨[1, 2, 1], .int 21⟩), ([1, 3], ⟨[1, 3, 1], .int 31⟩)]
      [⟨[1, 2, 1], .int 21⟩, ⟨[1, 3, 1], .int 31⟩] 1 5 =
      ⟨[⟨[1, 2, 1], .int 21⟩, ⟨[1, 3, 1], .int 31⟩], 2, .done⟩ :=
  multiwalkLoop_warn_faulty_terminates _ _ _ _ _ _ _ _ 4
    (by decide) (by decide)

/-- C3 (counterexample): a bulkwalk whose very first fetch raises
`NoSuchOID` does not produce a clean empty stream: the error is not
caught (the first fetch is outside the `try`/`except`) and propagates to
the caller. -/
theorem bulkwalk_first_fetch_nosuchoid_propagates :
    bulkwalk (fun _ _ _ => .error .noSuchOID) [[1, 3, 6]] 10 161 5 =
      ⟨[], 1, .failed .noSuchOID⟩ ∧
    WalkStatus.failed .noSuchOID ≠ .done := by decide

/-- C3 (amended): an error on the very first fetch of a walk (in
particular `NoSuchOID`) propagates to the caller with nothing yielded;
`NoSuchOID` on any *later* fetch terminates the walk cleanly with the
varbinds already yielded. -/
theorem multiwalk_nosuchoid_handling :
    (∀ (fetcher : Fetcher) (oids : List OID) (port timeout : Nat)
        (errors : ErrorMode) (fuel : Nat) (e : Err),
      fetcher oids port timeout = .error e →
      multiwalk oids port timeout fetcher errors fuel = ⟨[], 1, .failed e⟩) ∧
    (∀ (fetcher : Fetcher) (port timeout : Nat) (requested : List OID)
        (errors : ErrorMode) (yielded : List OID)
        (unfinished : List (OID × VarBind)) (acc : List VarBind)
        (fetches fuel : Nat),
      unfinished ≠ [] →
      fetcher (unfinished.map fun u => u.2.oid) port timeout =
        .error .noSuchOID →
      multiwalkLoop fetcher port timeout requested errors yielded
        unfinished acc fetches (fuel + 1) = ⟨acc, fetches + 1, .done⟩) := by
  constructor
  · intro fetcher oids port timeout errors fuel e hf
    simp only [multiwalk]
    rw [hf]
  · intro fetcher port timeout requested errors yielded unfinished acc
      fetches fuel hne hf
    simp only [multiwalkLoop]
    rw [if_neg (by simpa using hne), hf]

/-- C3 (witness): both branches of the amended statement at concrete
inputs. -/
theorem multiwalk_nosuchoid_handling_witness :
    multiwalk [[1, 3, 6]] 161 2 (fun _ _ _ => .error .noSuchOID)
      .strict 5 = ⟨[], 1, .failed .noSuchOID⟩ ∧
    multiwalkLoop (fun _ _ _ => .error .noSuchOID) 161 2 [[1, 3, 6]]
      .strict [[1, 3, 6, 1]] [([1, 3, 6], ⟨[1, 3, 6, 1], .int 1⟩)]
      [⟨[1, 3, 6, 1], .int 1⟩] 1 5 =
      ⟨[⟨[1, 3, 6, 1], .int 1⟩], 2, .done⟩ :=
  ⟨multiwalk_nosuchoid_handling.1 _ [[1, 3, 6]] 161 2 .strict 5
      .noSuchOID (by decide),
   multiwalk_nosuchoid_handling.2 _ 161 2 [[1, 3, 6]] .strict _ _ _ 1 4
      (by decide) (by decide)⟩

/-- C10: `bulkwalk` has no `timeout` and no `errors` parameter; it is
exactly `multiwalk` run with the bulk fetcher, the default timeout `2`
and the default strict error mode — and in strict mode a
`FaultySNMPImplementation` raised by the (bulk) fetcher during the loop
propagates to the caller, as does any error of the first fetch. Warn
mode is unreachable from `bulkwalk`. -/
theorem bulkwalk_strict_default (agent : Agent) (oids : List OID)
    (bulk_size port fuel : Nat) :
    (bulkwalk agent oids bulk_size port fuel =
      multiwalk oids port 2 (bulkwalk_fetcher bulk_size agent)
        .strict fuel) ∧
    (∀ (yielded : List OID) (unfinished : List (OID × VarBind))
        (acc : List VarBind) (fetches fuel' : Nat),
      unfinished ≠ [] →
      bulkwalk_fetcher bulk_size agent (unfinished.map fun u => u.2.oid)
        port 2 = .error .faultySNMPImplementation →
      multiwalkLoop (bulkwalk_fetcher bulk_size agent) port 2 oids
        .strict yielded unfinished acc fetches (fuel' + 1) =
        ⟨acc, fetches + 1, .failed .faultySNMPImplementation⟩) ∧
    (∀ e, bulkwalk_fetcher bulk_size agent oids port 2 = .error e →
      bulkwalk agent oids bulk_size port fuel = ⟨[], 1, .failed e⟩) := by
  refine ⟨?_, ?_, ?_⟩
  · show ({ multiwalk oids port 2 (bulkwalk_fetcher bulk_size agent)
        .strict fuel with
      yields := (multiwalk oids port 2 (bulkwalk_fetcher bulk_size agent)
        .strict fuel).yields.map fun vb => ⟨vb.oid, vb.value⟩ } :
        WalkResult) = _
    simp
  · intro yielded unfinished acc fetches fuel' hne hf
    simp only [multiwalkLoop]
    rw [if_neg (by simpa using hne), hf]
  · intro e hf
    show ({ multiwalk oids port 2 (bulkwalk_fetcher bulk_size agent)
        .strict fuel with
      yields := (multiwalk oids port 2 (bulkwalk_fetcher bulk_size agent)
        .strict fuel).yields.map fun vb => ⟨vb.oid, vb.value⟩ } :
        WalkResult) = _
    simp only [multiwalk]
    rw [hf]
    simp

/-- C10 (witness): an agent whose decode raises
`FaultySNMPImplementation` mid-walk fails the whole (strict) bulkwalk
loop; the same error on the first fetch fails `bulkwalk` itself. -/
theorem bulkwalk_strict_default_witness :
    multiwalkLoop
      (bulkwalk_fetcher 10 (fun _ _ _ => .error .faultySNMPImplementation))
      161 2 [[1, 3]] .strict [] [([1, 3], ⟨[1, 3, 1], .int 1⟩)]
      [⟨[1, 3, 1], .int 1⟩] 1 4 =
      ⟨[⟨[1, 3, 1], .int 1⟩], 2, .failed .faultySNMPImplementation⟩ ∧
    bulkwalk (fun _ _ _ => .error .faultySNMPImplementation) [[1, 3]]
      10 161 7 = ⟨[], 1, .failed .faultySNMPImplementation⟩ :=
  ⟨(bulkwalk_strict_default (fun _ _ _ => .error .faultySNMPImplementation)
      [[1, 3]] 10 161 0).2.1 [] _ _ 1 3 (by decide) (by decide),
   (bulkwalk_strict_default (fun _ _ _ => .error .faultySNMPImplementation)
      [[1, 3]] 10 161 7).2.2 .faultySNMPImplementation (by decide)⟩

/-! ## The walk guards (towards invariants I2 and I3) -/

/-- Every varbind passed through the yield filter was contained in a
requested base and had not been yielded before. -/
lemma yieldVarbinds_mem (requested : List OID) :
    ∀ (vbs : List VarBind) (yielded : List OID) (vb : VarBind),
      vb ∈ yieldVarbinds requested vbs yielded →
      (requested.any fun b => oidContains b vb.oid) = true ∧
        vb.oid ∉ yielded := by
  intro vbs
  induction vbs with
  | nil =>
    intro yielded vb h
    simp [yieldVarbinds] at h
  | cons v rest ih =>
    intro yielded vb h
    simp only [yieldVarbinds] at h
    by_cases hg : ((requested.any fun b => oidContains b v.oid)
        && !(yielded.contains v.oid)) = true
    · rw [if_pos hg] at h
      rcases List.mem_cons.mp h with h1 | h2
      · subst h1
        have hand := (Bool.and_eq_true _ _).mp hg
        refine ⟨hand.1, ?_⟩
        have := hand.2
        simpa using this
      · have := ih _ _ h2
        exact ⟨this.1, fun hm => this.2 (List.mem_cons_of_mem _ hm)⟩
    · rw [if_neg hg] at h
      exact ih _ _ h

/-- The OIDs produced by one round of the yield filter are pairwise
distinct. -/
lemma yieldVarbinds_nodup (requested : List OID) :
    ∀ (vbs : List VarBind) (yielded : List OID),
      ((yieldVarbinds requested vbs yielded).map VarBind.oid).Nodup := by
  intro vbs
  induction vbs with
  | nil =>
    intro yielded
    simp [yieldVarbinds]
  | cons v rest ih =>
    intro yielded
    simp only [yieldVarbinds]
    by_cases hg : ((requested.any fun b => oidContains b v.oid)
        && !(yielded.contains v.oid)) = true
    · rw [if_pos hg]
      simp only [List.map_cons, List.nodup_cons]
      refine ⟨?_, ih _⟩
      intro hmem
      rcases List.mem_map.mp hmem with ⟨vb, hvb, hoid⟩
      have := (yieldVarbinds_mem requested rest _ vb hvb).2
      exact this (by rw [hoid]; exact List.mem_cons_self _ _)
    · rw [if_neg hg]
      exact ih _

/-- The running `yielded` set only grows. -/
lemma yieldedAfter_subset (requested : List OID) :
    ∀ (vbs : List VarBind) (yielded : List OID) (o : OID),
      o ∈ yielded → o ∈ yieldedAfter requested vbs yielded := by
  intro vbs
  induction vbs with
  | nil =>
    intro yielded o h
    simpa [yieldedAfter] using h
  | cons v rest ih =>
    intro yielded o h
    simp only [yieldedAfter]
    by_cases hg : ((requested.any fun b => oidContains b v.oid)
        && !(yielded.contains v.oid)) = true
    · rw [if_pos hg]
      exact ih _ _ (List.mem_cons_of_mem _ h)
    · rw [if_neg hg]
      exact ih _ _ h

/-- Everything yielded in a round is recorded in the updated `yielded`
set. -/
lemma yieldVarbinds_sub_yieldedAfter (requested : List OID) :
    ∀ (vbs : List VarBind) (yielded : List OID) (vb : VarBind),
      vb ∈ yieldVarbinds requested vbs yielded →
      vb.oid ∈ yieldedAfter requested vbs yielded := by
  intro vbs
  induction vbs with
  | nil =>
    intro yielded vb h
    simp [yieldVarbinds] at h
  | cons v rest ih =>
    intro yielded vb h
    simp only [yieldVarbinds] at h
    simp only [yieldedAfter]
    by_cases hg : ((requested.any fun b => oidContains b v.oid)
        && !(yielded.contains v.oid)) = true
    · rw [if_pos hg] at h ⊢
      rcases List.mem_cons.mp h with h1 | h2
      · subst h1
        exact yieldedAfter_subset requested rest _ _
          (List.mem_cons_self _ _)
      · exact ih _ _ h2
    · rw [if_neg hg] at h ⊢
      exact ih _ _ h

/-- Loop invariant for `multiwalkLoop`: if the accumulated yields are
contained in a requested base, pairwise distinct and recorded in the
`yielded` set, the final yields of the loop keep the first two
properties. -/
lemma multiwalkLoop_inv (fetcher : Fetcher) (port timeout : Nat)
    (requested : List OID) (errors : ErrorMode) :
    ∀ (fuel : Nat) (yielded : List OID)
      (unfinished : List (OID × VarBind)) (acc : List VarBind)
      (fetches : Nat),
      (∀ vb ∈ acc, (requested.any fun b => oidContains b vb.oid) = true) →
      (acc.map VarBind.oid).Nodup →
      (∀ o ∈ acc.map VarBind.oid, o ∈ yielded) →
      (∀ vb ∈ (multiwalkLoop fetcher port timeout requested errors
          yielded unfinished acc fetches fuel).yields,
        (requested.any fun b => oidContains b vb.oid) = true) ∧
      ((multiwalkLoop fetcher port timeout requested errors yielded
          unfinished acc fetches fuel).yields.map VarBind.oid).Nodup := by
  intro fuel
  induction fuel with
  | zero =>
    intro yielded unfinished acc fetches h1 h2 _h3
    simp only [multiwalkLoop]
    split <;> exact ⟨h1, h2⟩
  | succ fuel ih =>
    intro yielded unfinished acc fetches h1 h2 h3
    simp only [multiwalkLoop]
    split
    · exact ⟨h1, h2⟩
    · cases hfe : fetcher (unfinished.map fun u => u.2.oid) port timeout with
      | error e =>
        cases e with
        | snmpError => exact ⟨h1, h2⟩
        | noSuchOID => exact ⟨h1, h2⟩
        | faultySNMPImplementation => cases errors <;> exact ⟨h1, h2⟩
      | ok varbinds =>
        apply ih
        · intro vb hvb
          rcases List.mem_append.mp hvb with ha | ho
          · exact h1 vb ha
          · exact (yieldVarbinds_mem requested _ _ vb ho).1
        · rw [List.map_append]
          refine List.Nodup.append h2 (yieldVarbinds_nodup requested _ _) ?_
          intro o hoa hob
          rcases List.mem_map.mp hob with ⟨vb, hvb, hoid⟩
          have := (yieldVarbinds_mem requested _ _ vb hvb).2
          rw [hoid] at this
          exact this (h3 o hoa)
        · intro o ho
          rw [List.map_append] at ho
          rcases List.mem_append.mp ho with ha | hb
          · exact yieldedAfter_subset requested _ _ _ (h3 o ha)
          · rcases List.mem_map.mp hb with ⟨vb, hvb, hoid⟩
            rw [← hoid]
            exact yieldVarbinds_sub_yieldedAfter requested _ _ vb hvb

/-- C7: every varbind yielded by a walk has its OID contained in at
least one of the requested base OIDs (I2), and no OID is yielded more
than once over the whole traversal (I3); a varbind failing the guards is
skipped without an error, as the `outsideAgent` run shows (the third
reply, outside the subtree, is skipped and the walk ends cleanly). -/
theorem multiwalk_containment_dedup (oids : List OID) (port timeout : Nat)
    (fetcher : Fetcher) (errors : ErrorMode) (fuel : Nat) :
    (∀ vb ∈ (multiwalk oids port timeout fetcher errors fuel).yields,
      ∃ b ∈ oids, oidContains b vb.oid = true) ∧
    ((multiwalk oids port timeout fetcher errors fuel).yields.map
      VarBind.oid).Nodup ∧
    multiwalk [[1, 3, 5]] 161 2 (multigetnext_fetcher outsideAgent)
      .strict 10 =
      ⟨[⟨[1, 3, 5, 1], .int 1⟩, ⟨[1, 3, 5, 13], .int 2⟩], 3, .done⟩ := by
  have key : (∀ vb ∈ (multiwalk oids port timeout fetcher errors
        fuel).yields,
      (oids.any fun b => oidContains b vb.oid) = true) ∧
      ((multiwalk oids port timeout fetcher errors fuel).yields.map
        VarBind.oid).Nodup := by
    simp only [multiwalk]
    cases hfe : fetcher oids port timeout with
    | error e => simp
    | ok varbinds =>
      apply multiwalkLoop_inv
      · intro vb hvb
        exact (yieldVarbinds_mem oids _ _ vb hvb).1
      · exact yieldVarbinds_nodup oids _ _
      · intro o ho
        rcases List.mem_map.mp ho with ⟨vb, hvb, hoid⟩
        rw [← hoid]
        exact yieldVarbinds_sub_yieldedAfter oids _ _ vb hvb
  refine ⟨?_, key.2, by decide⟩
  intro vb hvb
  have := key.1 vb hvb
  rcases List.any_eq_true.mp this with ⟨b, hb, hcont⟩
  exact ⟨b, hb, hcont⟩

/-- C7 (witness): the containment fact for a concrete yielded varbind
of the `stuckAgent` walk, and dedup for that walk's yields. -/
theorem multiwalk_containment_dedup_witness :
    (∃ b ∈ [([1, 2] : OID)], oidContains b [1, 2, 3] = true) ∧
    ((multiwalk [[1, 2]] 161 2 (multigetnext_fetcher stuckAgent) .warn
      10).yields.map VarBind.oid).Nodup :=
  ⟨(multiwalk_containment_dedup [[1, 2]] 161 2
      (multigetnext_fetcher stuckAgent) .warn 10).1
      ⟨[1, 2, 3], .int 123⟩ (by decide),
   (multiwalk_containment_dedup [[1, 2]] 161 2
      (multigetnext_fetcher stuckAgent) .warn 10).2.1⟩

end Puresnmp
